import Mathlib

/-!
Shallow embedding of the WPODNet post-processing pipeline
(src/wpodnet/backend.py) and verification of the specification claims.

Numeric idealization: the Python code computes with IEEE float64; the
embedding uses exact rationals.  All constants appearing in the code
(7.75, 0.5, 288, 16, 608) are exactly representable in binary floating
point, so the formulas proved here are the exact counterparts of the
source expressions.
-/

/-- Failure outcomes observable from the embedded code.  The first two
constructors model Python runtime errors that the arithmetic in
backend.py can actually hit (ZeroDivisionError from dividing by
`min(h, w)`, IndexError from out-of-range numpy indexing).  The last
three name the error taxonomy that the specification prescribes; the
repository defines none of these classes, and the constructors exist so
that the claims mentioning them can be stated and settled. -/
inductive PyError where
  | zeroDivisionError
  | indexError
  | invalidImage
  | shapeMismatch
  | singularTransform
  deriving DecidableEq

/-- Python `int()` applied to a real value: truncation toward zero. -/
def pyInt (q : ℚ) : ℤ :=
  if 0 ≤ q then ⌊q⌋ else ⌈q⌉

/-- The probability grid handed to `Predictor._get_max_anchor`:
a 2D numpy array of shape `(gridH, gridW)`, one value per anchor.
`val` is the cell content; entries outside the shape are irrelevant. -/
structure ProbGrid where
  gridH : ℕ
  gridW : ℕ
  val : ℕ → ℕ → ℚ

/-- The affine grid handed to `Predictor._get_bounds`: a 3D numpy array
of shape `(6, gridH, gridW)`, six affine parameters per anchor.
`val c y x` is the entry at channel `c`, row `y`, column `x`. -/
structure AffineGrid where
  gridH : ℕ
  gridW : ℕ
  val : ℕ → ℕ → ℕ → ℚ

/- ----------------------------------------------------------------
   Predictor._resize_to_fixed_ratio (backend.py lines 51-61)
   ---------------------------------------------------------------- -/

/-- Embedding of `wh_ratio = max(h, w) / min(h, w)` (backend.py line 54). -/
def whRatio (h w : ℤ) : ℚ :=
  ((max h w : ℤ) : ℚ) / ((min h w : ℤ) : ℚ)

/-- Embedding of `side = int(wh_ratio * 288)` (backend.py line 55). -/
def sideVal (h w : ℤ) : ℤ :=
  pyInt (whRatio h w * 288)

/-- Embedding of `bound_dim = min(side + side % 16, 608)` (backend.py
line 56).  Python `%` with a positive divisor agrees with `Int.emod`. -/
def boundDim (h w : ℤ) : ℤ :=
  min (sideVal h w + sideVal h w % 16) 608

/-- Embedding of `Predictor._resize_to_fixed_ratio` (backend.py lines
51-61), as a function of the input height and width producing the
resize target `(reg_w, reg_h)`.  The code performs no validation: the
first operation on the dimensions is the division `max(h, w) / min(h, w)`,
which raises ZeroDivisionError when `min(h, w) == 0`; every other input,
negative dimensions included, flows through the arithmetic unchecked. -/
def resize_to_fixed_ratio (h w : ℤ) : Except PyError (ℤ × ℤ) :=
  if min h w = 0 then
    .error .zeroDivisionError
  else
    let factor : ℚ := ((boundDim h w : ℤ) : ℚ) / ((min h w : ℤ) : ℚ)
    .ok (pyInt (w * factor), pyInt (h * factor))

/- ----------------------------------------------------------------
   Predictor._get_max_anchor (backend.py lines 79-80) and np.amax
   (backend.py line 114)
   ---------------------------------------------------------------- -/

/-- Index of the first occurrence of the maximum among
`f 0, …, f (n-1)`, the semantics of `np.argmax` on the row-major
flattening of an array: a later cell replaces the running best only
when strictly larger, so ties resolve to the earliest index. -/
def argmaxFlat (f : ℕ → ℚ) : ℕ → ℕ
  | 0 => 0
  | n + 1 => if f (argmaxFlat f n) < f n then n else argmaxFlat f n

/-- Maximum of `f 0, …, f (n-1)`, the semantics of `np.amax` on the
row-major flattening of an array. -/
def amaxFlat (f : ℕ → ℚ) : ℕ → ℚ
  | 0 => f 0
  | n + 1 => max (amaxFlat f n) (f n)

/-- Row-major flattening of a probability grid, matching numpy C order:
flat index `k` addresses cell `(k / gridW, k % gridW)`. -/
def flatVal (p : ProbGrid) : ℕ → ℚ :=
  fun k => p.val (k / p.gridW) (k % p.gridW)

/-- Embedding of `Predictor._get_max_anchor` (backend.py lines 79-80):
`np.unravel_index(probs.argmax(), probs.shape)`.  `argmax` scans the
row-major flattening; `unravel_index` maps the flat index back to
`(anchor_y, anchor_x)`. -/
def get_max_anchor (p : ProbGrid) : ℕ × ℕ :=
  let i := argmaxFlat (flatVal p) (p.gridH * p.gridW)
  (i / p.gridW, i % p.gridW)

/-- Embedding of `np.amax(probs)` (backend.py line 114), the confidence
stored in the resulting Prediction. -/
def amax (p : ProbGrid) : ℚ :=
  amaxFlat (flatVal p) (p.gridH * p.gridW)

/- ----------------------------------------------------------------
   Predictor._get_bounds (backend.py lines 82-97)
   ---------------------------------------------------------------- -/

/-- Embedding of `Predictor._scaling_const` (backend.py line 45). -/
def scaling_const : ℚ := 7.75

/-- Point update of one entry of the affine grid.  In the source,
`theta = affines[:, anchor_y, anchor_x]` is a numpy VIEW (basic
indexing) and `theta.reshape((2, 3))` is again a view (the strided
`(6,)` slice reshapes without copying), so the assignment
`theta[i, j] = v` writes the grid entry at channel `3*i + j`. -/
def writeVal (A : AffineGrid) (c y x : ℕ) (v : ℚ) : AffineGrid :=
  { A with val := fun c2 y2 x2 => if c2 = c ∧ y2 = y ∧ x2 = x then v else A.val c2 y2 x2 }

/-- One column of the matrix product `theta @ q` (backend.py line 90):
`theta` is the 2×3 affine matrix, the column of `q` is the homogeneous
corner offset `(qx, qy, 1)`. -/
def affineApply (t0 t1 t2 t3 t4 t5 qx qy : ℚ) : ℚ × ℚ :=
  (t0 * qx + t1 * qy + t2 * 1, t3 * qx + t4 * qy + t5 * 1)

/-- Embedding of `Predictor._get_bounds` (backend.py lines 82-97)
together with its side effect on the affine grid.  The steps mirror the
source: read `theta` through a view of `affines` at the anchor, clamp
`theta[0,0]` and `theta[1,1]` in place (channels 0 and 4 of the grid),
multiply by the template `_q` whose columns are the corner offsets
`(-0.5,-0.5), (0.5,-0.5), (0.5,0.5), (-0.5,0.5)` with a homogeneous
row of ones (backend.py lines 40-44), scale by 7.75, normalize by the
anchor position and grid shape, and transpose to a list of 4 points.
The first component of the result is the affine grid as left behind by
the in-place clamps; the second is the returned point list. -/
def get_bounds (A : AffineGrid) (ay ax : ℕ) : AffineGrid × List (ℚ × ℚ) :=
  let A1 := writeVal A 0 ay ax (max (A.val 0 ay ax) 0)
  let A2 := writeVal A1 4 ay ax (max (A1.val 4 ay ax) 0)
  let t : ℕ → ℚ := fun c => A2.val c ay ax
  let col : ℚ → ℚ → ℚ × ℚ := fun qx qy =>
    let b := affineApply (t 0) (t 1) (t 2) (t 3) (t 4) (t 5) qx qy
    ((b.1 * scaling_const + ax + 0.5) / A2.gridW,
     (b.2 * scaling_const + ay + 0.5) / A2.gridH)
  (A2, [col (-0.5) (-0.5), col 0.5 (-0.5), col 0.5 0.5, col (-0.5) 0.5])

/-- The quadrilateral returned by `Predictor._get_bounds`. -/
def boundsPoints (A : AffineGrid) (ay ax : ℕ) : List (ℚ × ℚ) :=
  (get_bounds A ay ax).2

/-- The affine grid after the in-place clamps of `Predictor._get_bounds`. -/
def affinesAfter (A : AffineGrid) (ay ax : ℕ) : AffineGrid :=
  (get_bounds A ay ax).1

/- ----------------------------------------------------------------
   Predictor.predict (backend.py lines 99-123), decoding stage
   ---------------------------------------------------------------- -/

/-- Numpy bounds check for `affines[:, anchor_y, anchor_x]`: indexing
with an out-of-range integer raises IndexError. -/
def get_bounds_checked (A : AffineGrid) (ay ax : ℕ) : Except PyError (List (ℚ × ℚ)) :=
  if ay < A.gridH ∧ ax < A.gridW then .ok (boundsPoints A ay ax) else .error .indexError

/-- Embedding of the decoding stage of `Predictor.predict` (backend.py
lines 111-116): select the anchor from the probability grid, decode the
bounds from the affine grid, and pair them with the confidence
`np.amax(probs)`.  The source performs no consistency check between the
two grids: the anchor chosen from `probs` is used to index `affines`
directly. -/
def predictCore (p : ProbGrid) (A : AffineGrid) : Except PyError (List (ℚ × ℚ) × ℚ) :=
  match get_bounds_checked A (get_max_anchor p).1 (get_max_anchor p).2 with
  | .ok b => .ok (b, amax p)
  | .error e => .error e

/- ----------------------------------------------------------------
   Prediction.warp (backend.py lines 29-36)
   ---------------------------------------------------------------- -/

/-- The two rows that torchvision `_get_perspective_coeffs` appends to
the least-squares matrix for one point pair, `p1` drawn from the
endpoints and `p2` from the startpoints. -/
def coeffRows (p1 p2 : ℚ × ℚ) : List (List ℚ) :=
  [[p1.1, p1.2, 1, 0, 0, 0, -p2.1 * p1.1, -p2.1 * p1.2],
   [0, 0, 0, p1.1, p1.2, 1, -p2.2 * p1.1, -p2.2 * p1.2]]

/-- The 8×8 system matrix of torchvision `_get_perspective_coeffs`,
built by iterating over `zip(endpoints, startpoints)`. -/
def aMatrix (startpoints endpoints : List (ℚ × ℚ)) : List (List ℚ) :=
  ((endpoints.zip startpoints).map fun pq => coeffRows pq.1 pq.2).flatten

/-- The right-hand side of the system: the startpoints flattened. -/
def bVector (startpoints : List (ℚ × ℚ)) : List ℚ :=
  startpoints.flatMap fun pt => [pt.1, pt.2]

/-- Forward elimination on augmented rows.  Each recursive step keeps
the pivot row and eliminates the leading column of the remaining rows;
the resulting row `i` holds the entries from column `i` on, plus the
right-hand side.  No pivot check is performed: when the leading
coefficient is zero the division yields 0 in `ℚ`, matching a solver
that assumes full rank and returns unspecified values otherwise. -/
def triangularize (rows : List (List ℚ)) : List (List ℚ) :=
  match rows with
  | [] => []
  | pivot :: rest =>
    pivot :: triangularize (rest.map fun row =>
      ((row.zip pivot).map fun ab => ab.1 - row.headD 0 / pivot.headD 0 * ab.2).tail)
termination_by rows.length
decreasing_by simp

/-- Back substitution on the triangular rows produced by
`triangularize`, solving the variables from the last row up. -/
def backSolve (rows : List (List ℚ)) : List ℚ :=
  match rows with
  | [] => []
  | row :: rest =>
    let xs := backSolve rest
    let s := ((row.tail.dropLast.zip xs).map fun ab => ab.1 * ab.2).sum
    (row.getLastD 0 - s) / row.headD 0 :: xs

/-- Unchecked linear solve of `a · x = b`.  This models
`torch.linalg.lstsq(a_matrix, b_matrix, driver="gels")` as called by
torchvision: the gels driver assumes the matrix has full rank and does
not signal rank deficiency, so the solve is total and a singular
system silently yields unspecified values. -/
def gaussSolve (a : List (List ℚ)) (b : List ℚ) : List ℚ :=
  backSolve (triangularize ((a.zip b).map fun rb => rb.1 ++ [rb.2]))

/-- Embedding of torchvision `_get_perspective_coeffs(startpoints,
endpoints)` as called by `Prediction.warp` (backend.py line 33).  This
function is third-party library code, embedded here because the claims
about `warp` are decided by its behavior: it assembles the projective
system and solves it with the full-rank least-squares driver, with no
singularity detection of any kind. -/
def getPerspectiveCoeffs (startpoints endpoints : List (ℚ × ℚ)) : List ℚ :=
  gaussSolve (aMatrix startpoints endpoints) (bVector startpoints)

/-- The destination rectangle `[[0, 0], [width, 0], [width, height],
[0, height]]` built by `Prediction.warp` (backend.py line 31). -/
def dstRect (width height : ℚ) : List (ℚ × ℚ) :=
  [(0, 0), (width, 0), (width, height), (0, height)]

/-- Embedding of `Prediction.warp` (backend.py lines 29-36) up to the
perspective coefficients.  The source computes the coefficients, feeds
them to `Image.transform`, and saves the result; it contains no raise
statement, no try/except, and the repository defines no exception
class, so the only failure surface is the library solve modelled by
`gaussSolve`, which is total.  The pixel resampling and the file write
carry no further numeric content. -/
def warpTransform (bounds : List (ℚ × ℚ)) (width height : ℚ) : Except PyError (List ℚ) :=
  .ok (getPerspectiveCoeffs bounds (dstRect width height))

/- ----------------------------------------------------------------
   Helper lemmas
   ---------------------------------------------------------------- -/

/-- The argmax index is in range for a non-empty prefix. -/
theorem argmaxFlat_lt (f : ℕ → ℚ) : ∀ n, 0 < n → argmaxFlat f n < n := by
  intro n hn
  induction n with
  | zero => omega
  | succ m ih =>
    simp only [argmaxFlat]
    split
    · omega
    · rcases Nat.eq_zero_or_pos m with h0 | hp
      · subst h0
        simp [argmaxFlat]
      · exact Nat.lt_succ_of_lt (ih hp)

/-- Every scanned value is bounded by the value at the argmax index. -/
theorem le_argmaxFlat (f : ℕ → ℚ) : ∀ n j, j < n → f j ≤ f (argmaxFlat f n) := by
  intro n
  induction n with
  | zero => intro j hj; omega
  | succ m ih =>
    intro j hj
    simp only [argmaxFlat]
    split
    · rename_i hlt
      rcases Nat.lt_succ_iff_lt_or_eq.mp hj with hj2 | hj2
      · exact le_trans (ih j hj2) (le_of_lt hlt)
      · subst hj2; exact le_rfl
    · rename_i hnlt
      rcases Nat.lt_succ_iff_lt_or_eq.mp hj with hj2 | hj2
      · exact ih j hj2
      · subst hj2; exact not_lt.mp hnlt

/-- Every value strictly before the argmax index is strictly below the
maximum: the scan keeps the first occurrence. -/
theorem argmaxFlat_first (f : ℕ → ℚ) :
    ∀ n j, j < argmaxFlat f n → f j < f (argmaxFlat f n) := by
  intro n
  induction n with
  | zero => intro j hj; simp [argmaxFlat] at hj
  | succ m ih =>
    intro j hj
    by_cases hc : f (argmaxFlat f m) < f m
    · simp only [argmaxFlat, if_pos hc] at hj ⊢
      rcases Nat.eq_zero_or_pos m with h0 | hp
      · omega
      · exact lt_of_le_of_lt (le_argmaxFlat f m j hj) hc
    · simp only [argmaxFlat, if_neg hc] at hj ⊢
      exact ih j hj

/-- The maximum of a non-empty prefix is the value at the argmax index. -/
theorem amaxFlat_eq (f : ℕ → ℚ) : ∀ n, amaxFlat f (n + 1) = f (argmaxFlat f (n + 1)) := by
  intro n
  induction n with
  | zero => simp [amaxFlat, argmaxFlat]
  | succ m ih =>
    by_cases hc : f (argmaxFlat f (m + 1)) < f (m + 1)
    · rw [show amaxFlat f (m + 1 + 1) = max (amaxFlat f (m + 1)) (f (m + 1)) from rfl,
        show argmaxFlat f (m + 1 + 1)
            = if f (argmaxFlat f (m + 1)) < f (m + 1) then m + 1 else argmaxFlat f (m + 1)
          from rfl,
        if_pos hc, ih]
      exact max_eq_right (le_of_lt hc)
    · rw [show amaxFlat f (m + 1 + 1) = max (amaxFlat f (m + 1)) (f (m + 1)) from rfl,
        show argmaxFlat f (m + 1 + 1)
            = if f (argmaxFlat f (m + 1)) < f (m + 1) then m + 1 else argmaxFlat f (m + 1)
          from rfl,
        if_neg hc, ih]
      exact max_eq_left (not_lt.mp hc)

/-- Row-major flattening evaluated at the flat index of a cell. -/
theorem flatVal_cell (p : ProbGrid) (y x : ℕ) (hx : x < p.gridW) :
    flatVal p (y * p.gridW + x) = p.val y x := by
  have hw : 0 < p.gridW := Nat.pos_of_ne_zero fun h => by omega
  unfold flatVal
  rw [show y * p.gridW + x = p.gridW * y + x by ring]
  rw [Nat.mul_add_div hw, Nat.div_eq_of_lt hx, Nat.add_zero, Nat.mul_add_mod,
    Nat.mod_eq_of_lt hx]

/-- A cell inside the grid has flat index inside the flattened range. -/
theorem cell_lt {gh gw : ℕ} {y x : ℕ} (hy : y < gh) (hx : x < gw) :
    y * gw + x < gh * gw := by
  calc y * gw + x < y * gw + gw := by omega
    _ = (y + 1) * gw := by ring
    _ ≤ gh * gw := Nat.mul_le_mul_right _ hy

/-- The integer scaled aspect ratio is at least 288 for valid images. -/
theorem sideVal_ge (h w : ℤ) (hh : 1 ≤ h) (hw : 1 ≤ w) : 288 ≤ sideVal h w := by
  have hmin : (1 : ℤ) ≤ min h w := le_min hh hw
  have hminq : (0 : ℚ) < ((min h w : ℤ) : ℚ) := by exact_mod_cast hmin
  have hratio : (1 : ℚ) ≤ whRatio h w := by
    rw [whRatio, le_div_iff₀ hminq, one_mul]
    exact_mod_cast min_le_max
  have h288 : (288 : ℚ) ≤ whRatio h w * 288 := by linarith
  rw [sideVal, pyInt, if_pos (le_trans (by norm_num) h288)]
  exact Int.le_floor.mpr (by exact_mod_cast h288)

/-- The clamped network input bound is at least 288. -/
theorem boundDim_ge (h w : ℤ) (hh : 1 ≤ h) (hw : 1 ≤ w) : 288 ≤ boundDim h w := by
  have hs := sideVal_ge h w hh hw
  have hmod : 0 ≤ sideVal h w % 16 := Int.emod_nonneg _ (by norm_num)
  exact le_min (by omega) (by norm_num)

/-- Truncation toward zero preserves a lower bound of one. -/
theorem pyInt_ge_one {q : ℚ} (hq : 1 ≤ q) : 1 ≤ pyInt q := by
  rw [pyInt, if_pos (le_trans zero_le_one hq)]
  exact Int.le_floor.mpr (by exact_mod_cast hq)

/- ----------------------------------------------------------------
   Claim theorems
   ---------------------------------------------------------------- -/

/-- C1: for every affine grid and in-range anchor, the decoded
quadrilateral consists of 4 points in order top-left, top-right,
bottom-right, bottom-left, where corner k has
x = ((max(theta00,0)*Qx + theta01*Qy + theta02) * 7.75 + anchor_x + 0.5) / grid_w
and
y = ((theta10*Qx + max(theta11,0)*Qy + theta12) * 7.75 + anchor_y + 0.5) / grid_h,
with template offsets (-0.5,-0.5), (0.5,-0.5), (0.5,0.5), (-0.5,0.5)
and theta the 6 channel values at the anchor reshaped row-major to 2x3
(channels 0..2 are row 0, channels 3..5 are row 1). -/
theorem claim_C1 (A : AffineGrid) (ay ax : ℕ)
    (_hy : ay < A.gridH) (_hx : ax < A.gridW) :
    boundsPoints A ay ax =
      [(((max (A.val 0 ay ax) 0 * (-0.5) + A.val 1 ay ax * (-0.5) + A.val 2 ay ax) * 7.75
            + ax + 0.5) / A.gridW,
        ((A.val 3 ay ax * (-0.5) + max (A.val 4 ay ax) 0 * (-0.5) + A.val 5 ay ax) * 7.75
            + ay + 0.5) / A.gridH),
       (((max (A.val 0 ay ax) 0 * 0.5 + A.val 1 ay ax * (-0.5) + A.val 2 ay ax) * 7.75
            + ax + 0.5) / A.gridW,
        ((A.val 3 ay ax * 0.5 + max (A.val 4 ay ax) 0 * (-0.5) + A.val 5 ay ax) * 7.75
            + ay + 0.5) / A.gridH),
       (((max (A.val 0 ay ax) 0 * 0.5 + A.val 1 ay ax * 0.5 + A.val 2 ay ax) * 7.75
            + ax + 0.5) / A.gridW,
        ((A.val 3 ay ax * 0.5 + max (A.val 4 ay ax) 0 * 0.5 + A.val 5 ay ax) * 7.75
            + ay + 0.5) / A.gridH),
       (((max (A.val 0 ay ax) 0 * (-0.5) + A.val 1 ay ax * 0.5 + A.val 2 ay ax) * 7.75
            + ax + 0.5) / A.gridW,
        ((A.val 3 ay ax * (-0.5) + max (A.val 4 ay ax) 0 * 0.5 + A.val 5 ay ax) * 7.75
            + ay + 0.5) / A.gridH)] := by
  simp [boundsPoints, get_bounds, writeVal, affineApply, scaling_const]

/-- Concrete instance of C1 at a 1x1 grid whose channel c holds the
value c: the decoded corners take the predicted closed-form values. -/
theorem claim_C1_witness :
    boundsPoints ⟨1, 1, fun c _ _ => (c : ℚ)⟩ 0 0 =
      [(12.125, 12.125), (12.125, 35.375), (19.875, 66.375), (19.875, 43.125)] := by
  rw [claim_C1 ⟨1, 1, fun c _ _ => (c : ℚ)⟩ 0 0 (by decide) (by decide)]
  norm_num

/-- The identity-like affine grid of claim C3: a 1x1 grid whose anchor
has theta = [[1,0,0],[0,1,0]] (a = e = 1, all other parameters 0). -/
def idGrid : AffineGrid :=
  ⟨1, 1, fun c _ _ => if c = 0 ∨ c = 4 then 1 else 0⟩

/-- Counterexample to C3: with identity-like parameters at anchor
(0,0) of a 1x1 grid, the first decoded corner is (-3.375, -3.375),
whose coordinates are negative, so the corner does not lie within
the unit square [0,1]x[0,1] asserted by the claim. -/
theorem claim_C3_counterexample :
    (boundsPoints idGrid 0 0).getD 0 (0, 0) = (-3.375, -3.375) ∧
    ¬ (0 ≤ ((boundsPoints idGrid 0 0).getD 0 (0, 0)).1) := by
  norm_num [boundsPoints, get_bounds, writeVal, affineApply, scaling_const, idGrid]

/-- C3 amended: for the identity-like parameters at anchor (0,0) in a
1x1 grid, the decoder yields the corners
(-3.375,-3.375), (4.375,-3.375), (4.375,4.375), (-3.375,4.375) in the
fixed order top-left, top-right, bottom-right, bottom-left (x grows
rightward along the top and bottom edges, y grows downward along both
sides), but every corner lies outside [0,1]x[0,1]: the 7.75 scaling
spreads the unit template far beyond the single anchor cell. -/
theorem claim_C3 :
    boundsPoints idGrid 0 0 =
      [(-3.375, -3.375), (4.375, -3.375), (4.375, 4.375), (-3.375, 4.375)] ∧
    (∀ pt ∈ boundsPoints idGrid 0 0,
      ¬ (0 ≤ pt.1 ∧ pt.1 ≤ 1 ∧ 0 ≤ pt.2 ∧ pt.2 ≤ 1)) := by
  constructor
  · norm_num [boundsPoints, get_bounds, writeVal, affineApply, scaling_const, idGrid]
  · intro pt hpt
    simp only [boundsPoints, get_bounds, writeVal, affineApply, scaling_const,
      idGrid] at hpt
    norm_num at hpt
    rcases hpt with h | h | h | h <;> rw [h] <;> norm_num

/-- C8: clamping makes a negative theta00 indistinguishable from zero:
decoding with the channel-0 entry at the anchor set to -2 produces
exactly the same quadrilateral as decoding with it set to 0. -/
theorem claim_C8 (A : AffineGrid) (ay ax : ℕ) :
    boundsPoints (writeVal A 0 ay ax (-2)) ay ax =
      boundsPoints (writeVal A 0 ay ax 0) ay ax := by
  have h1 : max (-2 : ℚ) 0 = 0 := max_eq_right (by norm_num)
  have h2 : max (0 : ℚ) 0 = 0 := max_self 0
  simp [boundsPoints, get_bounds, writeVal, affineApply, h1, h2]

/-- C10: decoding the bounds at an in-range anchor leaves the affine
grid with the entries at channels 0 and 4 of the anchor clamped to
max(original, 0) - the clamp writes through the numpy view - and
every other entry unchanged. -/
theorem claim_C10 (A : AffineGrid) (ay ax : ℕ)
    (_hy : ay < A.gridH) (_hx : ax < A.gridW) :
    (affinesAfter A ay ax).gridH = A.gridH ∧
    (affinesAfter A ay ax).gridW = A.gridW ∧
    (affinesAfter A ay ax).val 0 ay ax = max (A.val 0 ay ax) 0 ∧
    (affinesAfter A ay ax).val 4 ay ax = max (A.val 4 ay ax) 0 ∧
    ∀ c y x, ¬ (c = 0 ∧ y = ay ∧ x = ax) → ¬ (c = 4 ∧ y = ay ∧ x = ax) →
      (affinesAfter A ay ax).val c y x = A.val c y x := by
  refine ⟨rfl, rfl, ?_, ?_, ?_⟩
  · simp [affinesAfter, get_bounds, writeVal]
  · simp [affinesAfter, get_bounds, writeVal]
  · intro c y x h0 h4
    simp [affinesAfter, get_bounds, writeVal, h0, h4]

/-- The affine grid used to witness C10: every channel negative. -/
def negGrid : AffineGrid :=
  ⟨1, 1, fun c _ _ => -(c : ℚ) - 1⟩

/-- Concrete instance of C10: on a 1x1 grid with negative entries, the
channel-0 entry at the anchor is clamped while channel 5 is unchanged. -/
theorem claim_C10_witness :
    (affinesAfter negGrid 0 0).val 0 0 0 = max (negGrid.val 0 0 0) 0 ∧
    (affinesAfter negGrid 0 0).val 5 0 0 = negGrid.val 5 0 0 := by
  have h := claim_C10 negGrid 0 0 (by decide) (by decide)
  exact ⟨h.2.2.1, h.2.2.2.2 5 0 0 (by decide) (by decide)⟩

/-- Counterexample to C4: for an image of height 289 and width 288 the
aspect ratio is 289/288, side = 289, and side + side % 16 = 290, which
is neither a multiple of 16 nor the cap 608: the expression
side + side % 16 adds the remainder instead of rounding up to the next
multiple-of-16 boundary. -/
theorem claim_C4_counterexample :
    boundDim 289 288 = 290 ∧ boundDim 289 288 % 16 ≠ 0 ∧ boundDim 289 288 ≠ 608 := by
  norm_num [boundDim, sideVal, whRatio, pyInt]

/-- C4 amended: for every input image with height and width at least 1,
bound_dim = min(side + side mod 16, 608) lies in [16, 608] (indeed in
[288, 608]); it is not in general a multiple of 16 when below the cap,
since side + (side mod 16) rounds to a multiple of 16 only when
side mod 16 is 0 or 8. -/
theorem claim_C4 (h w : ℤ) (hh : 1 ≤ h) (hw : 1 ≤ w) :
    16 ≤ boundDim h w ∧ boundDim h w ≤ 608 := by
  have hs := sideVal_ge h w hh hw
  have hmod : 0 ≤ sideVal h w % 16 := Int.emod_nonneg _ (by norm_num)
  exact ⟨le_min (by omega) (by norm_num), min_le_right _ _⟩

/-- Concrete instance of C4 amended at a 1x1 image. -/
theorem claim_C4_witness : 16 ≤ boundDim 1 1 ∧ boundDim 1 1 ≤ 608 :=
  claim_C4 1 1 le_rfl le_rfl

/-- Counterexample to C7: the resizer rejects nothing.  A height and
width of -1 and -2 flow through the arithmetic and produce the resize
target (144, 72) without any error, and a zero height fails with the
ZeroDivisionError of `max(h, w) / min(h, w)`, not with an
InvalidImageError - no such class exists in the repository. -/
theorem claim_C7_counterexample :
    resize_to_fixed_ratio (-1) (-2) = .ok (144, 72) ∧
    resize_to_fixed_ratio 0 5 = .error .zeroDivisionError := by
  constructor
  · norm_num [resize_to_fixed_ratio, boundDim, sideVal, whRatio, pyInt]
  · norm_num [resize_to_fixed_ratio]

/-- C7 amended: the resizer never raises an InvalidImageError (the
code defines no validation and no such error class); an input with
min(h, w) = 0 fails with ZeroDivisionError at the aspect-ratio
division, and every other input - negative dimensions included -
produces a result without error. -/
theorem claim_C7 (h w : ℤ) :
    resize_to_fixed_ratio h w ≠ .error .invalidImage ∧
    (resize_to_fixed_ratio h w = .error .zeroDivisionError ↔ min h w = 0) := by
  by_cases h0 : min h w = 0
  · simp [resize_to_fixed_ratio, h0]
  · simp [resize_to_fixed_ratio, h0]

/-- C9: for every input with height and width at least 1 the resizer
is a total deterministic function returning a target size (reg_w,
reg_h) with both components at least 1; in particular the computation
performs no division by zero even for a 1x1 image. -/
theorem claim_C9 (h w : ℤ) (hh : 1 ≤ h) (hw : 1 ≤ w) :
    ∃ r1 r2, resize_to_fixed_ratio h w = .ok (r1, r2) ∧ 1 ≤ r1 ∧ 1 ≤ r2 := by
  have hmin : (1 : ℤ) ≤ min h w := le_min hh hw
  have hne : min h w ≠ 0 := by omega
  have hminq : (0 : ℚ) < ((min h w : ℤ) : ℚ) := by exact_mod_cast hmin
  have hbd : (288 : ℤ) ≤ boundDim h w := boundDim_ge h w hh hw
  have hbq : (288 : ℚ) ≤ ((boundDim h w : ℤ) : ℚ) := by exact_mod_cast hbd
  have key : ∀ d : ℤ, min h w ≤ d →
      1 ≤ pyInt ((d : ℚ) * (((boundDim h w : ℤ) : ℚ) / ((min h w : ℤ) : ℚ))) := by
    intro d hd
    apply pyInt_ge_one
    have hdq : ((min h w : ℤ) : ℚ) ≤ (d : ℚ) := by exact_mod_cast hd
    have h1 : (1 : ℚ) ≤ (d : ℚ) / ((min h w : ℤ) : ℚ) := (one_le_div hminq).mpr hdq
    have h2 : (288 : ℚ) * 1 ≤
        ((boundDim h w : ℤ) : ℚ) * ((d : ℚ) / ((min h w : ℤ) : ℚ)) :=
      mul_le_mul hbq h1 zero_le_one (le_trans (by norm_num) hbq)
    calc (1 : ℚ) ≤ (288 : ℚ) * 1 := by norm_num
      _ ≤ ((boundDim h w : ℤ) : ℚ) * ((d : ℚ) / ((min h w : ℤ) : ℚ)) := h2
      _ = (d : ℚ) * (((boundDim h w : ℤ) : ℚ) / ((min h w : ℤ) : ℚ)) := by ring
  exact ⟨_, _, by simp only [resize_to_fixed_ratio, if_neg hne],
    key w (min_le_right h w), key h (min_le_left h w)⟩

/-- Concrete instance of C9 at a 1x1 image: the resizer returns a
valid target without crashing. -/
theorem claim_C9_witness :
    ∃ r1 r2, resize_to_fixed_ratio 1 1 = .ok (r1, r2) ∧ 1 ≤ r1 ∧ 1 ≤ r2 :=
  claim_C9 1 1 le_rfl le_rfl

/-- Counterexample to C5: handing the perspective warp the four
collinear source points (0,0), (1,1), (2,2), (3,3) does not raise a
SingularTransformError - the warp surfaces no error at all, because
the coefficient solve assumes full rank and the repository defines no
such exception class. -/
theorem claim_C5_counterexample :
    warpTransform [(0, 0), (1, 1), (2, 2), (3, 3)] 208 60 ≠
      Except.error PyError.singularTransform := by
  simp [warpTransform]

/-- C5 amended: Prediction.warp performs no singularity detection and
can surface no failure: the repository defines no
SingularTransformError, and the coefficient solve is delegated to the
full-rank least-squares driver, which signals nothing on a singular
system, so collinear source points silently yield an unspecified
degenerate transform instead of an explicit error. -/
theorem claim_C5 (bounds : List (ℚ × ℚ)) (width height : ℚ) (e : PyError) :
    warpTransform bounds width height ≠ Except.error e := by
  simp [warpTransform]

/-- The shape-mismatched pair of grids used against C6: a 1x1
probability grid next to a 2x2-anchor affine grid. -/
def probMismatch : ProbGrid := ⟨1, 1, fun _ _ => 1⟩

/-- The affine grid of the C6 counterexample, with 2x2 spatial dims. -/
def affMismatch : AffineGrid := ⟨2, 2, fun _ _ _ => 0⟩

/-- Counterexample to C6: with a 1x1 probability grid and a 2x2
affine grid the spatial dimensions disagree, yet the pipeline raises
nothing: it silently decodes the quadrilateral using the affine grid
dimensions and returns it with confidence 1. -/
theorem claim_C6_counterexample :
    (probMismatch.gridH ≠ affMismatch.gridH ∨ probMismatch.gridW ≠ affMismatch.gridW) ∧
    predictCore probMismatch affMismatch =
      .ok ([(0.25, 0.25), (0.25, 0.25), (0.25, 0.25), (0.25, 0.25)], 1) := by
  constructor
  · norm_num [probMismatch, affMismatch]
  · norm_num [predictCore, get_bounds_checked, get_max_anchor, argmaxFlat, flatVal,
      amax, amaxFlat, boundsPoints, get_bounds, writeVal, affineApply, scaling_const,
      probMismatch, affMismatch]

/-- C6 amended: the pipeline performs no shape-consistency check and
never raises a ShapeMismatchError; when the anchor selected from the
probability grid lies inside the affine grid the decode silently
proceeds with the affine grid dimensions, and when it lies outside,
numpy indexing fails with an IndexError. -/
theorem claim_C6 (p : ProbGrid) (A : AffineGrid) :
    predictCore p A ≠ Except.error PyError.shapeMismatch := by
  by_cases hc : (get_max_anchor p).1 < A.gridH ∧ (get_max_anchor p).2 < A.gridW
  · simp [predictCore, get_bounds_checked, hc]
  · simp [predictCore, get_bounds_checked, hc]

/-- C2: for every non-empty probability grid, the anchor selector
returns the coordinates of a cell attaining the maximum value; on ties
it returns the first occurrence in row-major scan order; a 1x1 grid
yields (0,0); and the confidence np.amax(probs) stored in the
Prediction equals the value at the selected anchor, the maximum. -/
theorem claim_C2 (p : ProbGrid) (hh : 0 < p.gridH) (hw : 0 < p.gridW) :
    (get_max_anchor p).1 < p.gridH ∧
    (get_max_anchor p).2 < p.gridW ∧
    (∀ y x, y < p.gridH → x < p.gridW →
      p.val y x ≤ p.val (get_max_anchor p).1 (get_max_anchor p).2) ∧
    (∀ y x, y < p.gridH → x < p.gridW →
      y * p.gridW + x < (get_max_anchor p).1 * p.gridW + (get_max_anchor p).2 →
      p.val y x < p.val (get_max_anchor p).1 (get_max_anchor p).2) ∧
    (p.gridH = 1 → p.gridW = 1 → get_max_anchor p = (0, 0)) ∧
    amax p = p.val (get_max_anchor p).1 (get_max_anchor p).2 := by
  have hn : 0 < p.gridH * p.gridW := Nat.mul_pos hh hw
  have hanchor : get_max_anchor p =
      (argmaxFlat (flatVal p) (p.gridH * p.gridW) / p.gridW,
       argmaxFlat (flatVal p) (p.gridH * p.gridW) % p.gridW) := rfl
  have hvali : p.val (get_max_anchor p).1 (get_max_anchor p).2 =
      flatVal p (argmaxFlat (flatVal p) (p.gridH * p.gridW)) := rfl
  have hidx : (get_max_anchor p).1 * p.gridW + (get_max_anchor p).2 =
      argmaxFlat (flatVal p) (p.gridH * p.gridW) := by
    rw [hanchor]
    show argmaxFlat (flatVal p) (p.gridH * p.gridW) / p.gridW * p.gridW +
        argmaxFlat (flatVal p) (p.gridH * p.gridW) % p.gridW =
      argmaxFlat (flatVal p) (p.gridH * p.gridW)
    rw [Nat.mul_comm, Nat.div_add_mod]
  have hlt := argmaxFlat_lt (flatVal p) (p.gridH * p.gridW) hn
  refine ⟨?_, ?_, ?_, ?_, ?_, ?_⟩
  · rw [hanchor]
    exact (Nat.div_lt_iff_lt_mul hw).mpr hlt
  · rw [hanchor]
    exact Nat.mod_lt _ hw
  · intro y x hy hx
    rw [hvali, ← flatVal_cell p y x hx]
    exact le_argmaxFlat (flatVal p) (p.gridH * p.gridW) _ (cell_lt hy hx)
  · intro y x hy hx hfirst
    rw [hidx] at hfirst
    rw [hvali, ← flatVal_cell p y x hx]
    exact argmaxFlat_first (flatVal p) (p.gridH * p.gridW) _ hfirst
  · intro h1 hw1
    rw [hanchor, h1, hw1]
    norm_num [argmaxFlat]
  · obtain ⟨m, hm⟩ := Nat.exists_eq_succ_of_ne_zero (Nat.pos_iff_ne_zero.mp hn)
    rw [hvali, amax, hm]
    exact amaxFlat_eq (flatVal p) m

/-- The tied probability grid used to witness C2: values
[[3, 5], [5, 3]], with the maximum 5 attained twice; the first
occurrence in row-major order is (0, 1). -/
def tieGrid : ProbGrid :=
  ⟨2, 2, fun y x => if y = 0 ∧ x = 1 then 5 else if y = 1 ∧ x = 0 then 5 else 3⟩

/-- Concrete instance of C2 on the tied grid: the anchor row is in
range, the cell (1,1) is dominated by the selected cell, and the
stored confidence equals the value at the selected anchor. -/
theorem claim_C2_witness :
    (get_max_anchor tieGrid).1 < tieGrid.gridH ∧
    tieGrid.val 1 1 ≤ tieGrid.val (get_max_anchor tieGrid).1 (get_max_anchor tieGrid).2 ∧
    amax tieGrid = tieGrid.val (get_max_anchor tieGrid).1 (get_max_anchor tieGrid).2 := by
  have h := claim_C2 tieGrid (by decide) (by decide)
  exact ⟨h.1, h.2.2.1 1 1 (by decide) (by decide), h.2.2.2.2.2⟩
